import Mathlib

/-!
Verification development for the pandemonium conversation core: a shallow
embedding of the turn-scheduling and shared-memory state machine from
`src/pandemonium` (conversation.py, agents/base_agent.py, agents/broker.py,
langgraph_memory.py), together with theorems settling the spec claims.

External collaborators (the LLM responder, the evaluator, the random source)
are modelled as explicit inputs: each `next_turn` call takes the outcome of
the scheduler's random draws (`SpeakerPick`) and the outcome of the selected
speaker's response generation (`Except Unit String`, error = generation
failure).  Message text is carried verbatim; fixed prompt strings from the
source are reproduced up to punctuation that plays no role in any claim.
-/

namespace Pandemonium

/-- LangChain message kinds used by the code (HumanMessage / AIMessage /
SystemMessage), carrying their content string. -/
inductive BaseMessage where
  | human (content : String)
  | ai (content : String)
  | system (content : String)
deriving DecidableEq, Repr

/-- An entry of an agent conversation history: the dict
`\x7b"speaker": ..., "message": ..., "turn": ...\x7d` built by
`BaseAgent.add_to_history`. -/
structure Message where
  speaker : String
  message : String
  turn : Nat
deriving DecidableEq, Repr

/-- A reference to an agent's memory list.  Python's
`self.memory_messages = messages` is a reference assignment, and
`LangGraphMemory.get_recent_messages` returns `state["messages"]` itself —
the very list object — whenever the log fits the window (only the slicing
path builds a fresh list).  So an agent's memory either IS the conversation
state's canonical `messages` list (`aliased`: reads and appends write
through to the canonical log) or is a detached list of its own (`owned`). -/
inductive MemoryRef where
  | aliased
  | owned (msgs : List BaseMessage)
deriving DecidableEq, Repr

/-- The mutable per-agent state of `BaseAgent`: name, private conversation
history, last seen turn ordinal, and the LangGraph-style memory reference.
Persona text and the LLM handle are external collaborators and carry no
core state. -/
structure AgentState where
  name : String
  conversation_history : List Message
  last_seen_turn : Nat
  memory_messages : MemoryRef
deriving DecidableEq, Repr

/-- `BaseAgent.__init__`: empty history, `last_seen_turn = 0`, a fresh empty
memory list of the agent's own. -/
def mkAgent (name : String) : AgentState :=
  { name := name, conversation_history := [], last_seen_turn := 0,
    memory_messages := .owned [] }

/-- `BaseAgent.add_to_history`: append an entry whose `turn` ordinal is the
new length of the history (`len(self.conversation_history) + 1`). -/
def AgentState.add_to_history (a : AgentState) (message speaker : String) : AgentState :=
  { a with conversation_history :=
      a.conversation_history ++
        [{ speaker := speaker, message := message,
           turn := a.conversation_history.length + 1 }] }

/-- One iteration of the loop body of `BaseAgent.update_with_new_messages`,
acting on the pair (agent, canonical LangGraph log): append the message to
the agent's private history, set `last_seen_turn` to that message's turn,
and (unless the speaker is this agent) append a HumanMessage to the
agent's memory — which writes through into the canonical log whenever the
memory aliases it. -/
def AgentState.update_with_one (p : AgentState × List BaseMessage) (m : Message) :
    AgentState × List BaseMessage :=
  let a := p.1
  let a1 := { a with conversation_history := a.conversation_history ++ [m],
                     last_seen_turn := m.turn }
  if m.speaker ≠ a.name then
    match a.memory_messages with
    | .aliased => (a1, p.2 ++ [.human (m.speaker ++ ": " ++ m.message)])
    | .owned l =>
        ({ a1 with memory_messages :=
            (.owned (l ++ [.human (m.speaker ++ ": " ++ m.message)])) }, p.2)
  else (a1, p.2)

/-- `BaseAgent.update_with_new_messages`: fold the loop body over the list of
new messages in order, threading the canonical LangGraph log so that
memory appends through an alias reach it.  Returns the updated agent and
the (possibly grown) canonical log. -/
def AgentState.update_with_new_messages (a : AgentState) (new : List Message)
    (log : List BaseMessage) : AgentState × List BaseMessage :=
  new.foldl AgentState.update_with_one (a, log)

/-- `BaseAgent.set_memory_messages`: a reference assignment — the agent's
memory becomes whatever reference `get_recent_messages` handed over (the
canonical list itself, or a detached slice). -/
def AgentState.set_memory_messages (a : AgentState) (m : MemoryRef) : AgentState :=
  { a with memory_messages := m }

/-- `BaseAgent._add_response_to_memory`: append the agent's own response as an
AIMessage to its memory — through the alias into the canonical log when
aliased.  Performed inside every concrete `respond` implementation just
before the response is returned. -/
def AgentState.add_response_to_memory (a : AgentState) (response : String)
    (log : List BaseMessage) : AgentState × List BaseMessage :=
  match a.memory_messages with
  | .aliased => (a, log ++ [.ai response])
  | .owned l => ({ a with memory_messages := .owned (l ++ [.ai response]) }, log)

/-- The LangGraph `ConversationState` TypedDict from langgraph_memory.py. -/
structure ConversationState where
  messages : List BaseMessage
  current_agent : String
  topic : String
  round_count : Nat
  max_rounds : Nat
  agent_responses : List (String × String)
deriving DecidableEq, Repr

namespace LangGraphMemory

/-- `LangGraphMemory.create_initial_state`. -/
def create_initial_state (topic : String) (max_rounds : Nat) : ConversationState :=
  { messages := [], current_agent := "", topic := topic, round_count := 0,
    max_rounds := max_rounds, agent_responses := [] }

/-- `LangGraphMemory.get_recent_messages` as a value: `self_window` is the
instance field `self.window_size` (Config default 10); `arg` is the
optional `window_size` parameter.  Python computes `window = window_size or
self.window_size`, so both `None` and `0` fall back to the instance field.
Returns the whole log when its length is at most the window, else the
trailing slice `messages[-window:]` (for `window = 0` the slice `[-0:]` is
again the whole list).  A pure read: the state is not changed — but note
that when the log fits the window, Python returns the `messages` list
object itself, not a copy; `recent_ref` below records that aliasing. -/
def get_recent_messages (self_window : Nat) (state : ConversationState)
    (arg : Option Nat) : List BaseMessage :=
  let window : Nat :=
    match arg with
    | none => self_window
    | some 0 => self_window
    | some w => w
  if state.messages.length ≤ window then state.messages
  else if window = 0 then state.messages
  else state.messages.drop (state.messages.length - window)

/-- The reference `get_recent_messages state` (no explicit size) hands to
its caller: the canonical `messages` list itself — an alias — when the log
fits the instance window, else a detached slice whose contents
`get_recent_messages` describes. -/
def recent_ref (self_window : Nat) (state : ConversationState) : MemoryRef :=
  if state.messages.length ≤ self_window then .aliased
  else .owned (get_recent_messages self_window state none)

/-- `LangGraphMemory.add_message`: append one message to the state's log. -/
def add_message (state : ConversationState) (m : BaseMessage) : ConversationState :=
  { state with messages := state.messages ++ [m] }

end LangGraphMemory

/-- `BrokerAgent` state: the inherited `BaseAgent` fields plus the
round-robin cursor `current_turn`.  The broker's `agents` list aliases the
conversation's participant list and is kept on `Conversation`. -/
structure BrokerState where
  agent : AgentState
  current_turn : Nat
deriving DecidableEq, Repr

/-- Outcome of the two `random.random() < 0.1` draws inside
`BrokerAgent.get_next_agent`: the broker override fired, the
random-participant override fired (with the index `random.choice` picked),
or neither did (canonical round-robin). -/
inductive SpeakerPick where
  | brokerSpeaks
  | randomAgent (i : Nat)
  | roundRobin
deriving DecidableEq, Repr

/-- Identity of the selected speaker: the broker itself or the participant at
a given index of the conversation's agent list. -/
inductive Speaker where
  | broker
  | participant (i : Nat)
deriving DecidableEq, Repr

/-- The `Conversation` object: topic, broker, participant list, round
counter, round limit, the LangGraph memory's window size, and the LangGraph
conversation state. -/
structure Conversation where
  topic : String
  broker : BrokerState
  agents : List AgentState
  round_count : Nat
  max_rounds : Nat
  window_size : Nat
  conversation_state : ConversationState
deriving DecidableEq, Repr

/-- `Conversation.__init__` with explicit agent specs: participants are
`MetaAgent`s whose generated names are the given list; `round_count = 0`,
`max_rounds = 3`, LangGraph memory with the default window size 10 and the
initial state for the topic. -/
def Conversation.init (topic : String) (names : List String) : Conversation :=
  { topic := topic
    broker := { agent := mkAgent "BrokerBobby", current_turn := 0 }
    agents := names.map mkAgent
    round_count := 0
    max_rounds := 3
    window_size := 10
    conversation_state := LangGraphMemory.create_initial_state topic 3 }

/-- `Conversation.set_max_rounds`: sets both the attribute and the state
dict entry. -/
def Conversation.set_max_rounds (c : Conversation) (rounds : Nat) : Conversation :=
  { c with max_rounds := rounds,
           conversation_state := { c.conversation_state with max_rounds := rounds } }

/-- The introduction string built by `BrokerAgent.introduce_topic`
(punctuation condensed; its content is opaque to every claim). -/
def introduction_text (topic : String) (names : List String) : String :=
  "Topic of the chatroom: " ++ topic ++
    "\n\nThe following users are participating in the conversation:\n" ++
    String.intercalate ", " names ++ "\n\nAnyone can start"

/-- `Conversation.start_conversation`: `broker.introduce_topic` appends the
introduction to the broker's history under speaker name "The Broker", then
the introduction is appended to the LangGraph state as a HumanMessage.
Returns the updated conversation and the introduction text.  There is no
started/concluded guard in the code. -/
def Conversation.start_conversation (c : Conversation) : Conversation × String :=
  let intro := introduction_text c.topic (c.agents.map AgentState.name)
  let c1 := { c with broker :=
      { c.broker with agent := c.broker.agent.add_to_history intro "The Broker" } }
  let c2 := { c1 with conversation_state :=
      LangGraphMemory.add_message c1.conversation_state (.human intro) }
  (c2, intro)

/-- `Conversation._get_new_messages_for_agent`: every entry of the broker's
conversation history whose turn ordinal exceeds the agent's
`last_seen_turn`, in log order. -/
def Conversation.get_new_messages_for_agent (c : Conversation) (a : AgentState) :
    List Message :=
  c.broker.agent.conversation_history.filter (fun m => a.last_seen_turn < m.turn)

/-- Default agent used to total `List.getD`; every access is guarded by a
nonempty-list check mirroring the `ValueError` in
`BrokerAgent.get_next_agent`. -/
def dummyAgent : AgentState := mkAgent ""

/-- Read the state of the selected speaker (the broker aliases itself). -/
def Conversation.speakerState (c : Conversation) : Speaker → AgentState
  | .broker => c.broker.agent
  | .participant i => c.agents.getD i dummyAgent

/-- Write back the state of the selected speaker, modelling in-place mutation
of the Python object (which `Conversation.agents` and `BrokerAgent.agents`
alias). -/
def Conversation.setSpeakerState (c : Conversation) (sp : Speaker) (a : AgentState) :
    Conversation :=
  match sp with
  | .broker => { c with broker := { c.broker with agent := a } }
  | .participant i => { c with agents := c.agents.set i a }

/-- `BrokerAgent.get_next_agent`: raises when no agents are set; otherwise
reads the round-robin index from the pre-increment `current_turn`,
increments `current_turn`, and then the override draws decide the speaker:
broker override returns the broker itself, random override returns a
uniformly drawn participant (modelled as an arbitrary index reduced mod the
participant count), else the round-robin participant. -/
def Conversation.get_next_agent (c : Conversation) (pick : SpeakerPick) :
    Except String (Speaker × Conversation) :=
  if c.agents.length = 0 then
    .error "No agents have been set for the conversation"
  else
    let idx := c.broker.current_turn % c.agents.length
    let c1 := { c with broker := { c.broker with current_turn := c.broker.current_turn + 1 } }
    match pick with
    | .brokerSpeaks => .ok (.broker, c1)
    | .randomAgent i => .ok (.participant (i % c.agents.length), c1)
    | .roundRobin => .ok (.participant idx, c1)

/-- The conclusion string composed by `Conversation._conclude_conversation`
around the external evaluator's summary (punctuation condensed; the
evaluator agent's name is "Evaluator"). -/
def conclusion_text (max_rounds : Nat) (topic evaluatorSummary : String) : String :=
  "\n--- Conversation Complete ---\n\nWe have completed " ++ toString max_rounds ++
    " rounds of discussion on " ++ topic ++
    ".\nThank you to all participants for sharing their unique perspectives!" ++
    "\n\nFinal evaluation by independent assessor:\nEvaluator: " ++ evaluatorSummary

/-- `Conversation._conclude_conversation`: builds a fresh evaluator (external;
its one-shot output is the `evaluatorSummary` input), composes the
conclusion, appends it to the LangGraph state as a HumanMessage, and
returns it.  The broker's ordinal log and all counters are untouched. -/
def Conversation.conclude_conversation (c : Conversation) (evaluatorSummary : String) :
    Conversation × String :=
  let conclusion := conclusion_text c.max_rounds c.topic evaluatorSummary
  ({ c with conversation_state :=
      LangGraphMemory.add_message c.conversation_state (.human conclusion) },
   conclusion)

/-- Result of one `Conversation.next_turn` call. -/
inductive TurnResult where
  /-- A speaker was dispatched and its formatted response line returned. -/
  | spoke (sp : Speaker) (text : String)
  /-- `round_count >= max_rounds` held on entry: the terminal summary. -/
  | concluded (text : String)
  /-- The selected speaker's `respond` raised; the exception propagates. -/
  | generationFailed
  /-- `get_next_agent` raised `ValueError` (no agents set). -/
  | noAgents
deriving DecidableEq, Repr

/-- Replace the canonical LangGraph message list (in Python an in-place
mutation of the `messages` list object). -/
def Conversation.with_messages (c : Conversation) (msgs : List BaseMessage) : Conversation :=
  { c with conversation_state := { c.conversation_state with messages := msgs } }

/-- `Conversation.next_turn`.  `pick` is the outcome of the scheduler's random
draws and `resp` the outcome of the selected speaker's external `respond`
call (`.error` = the LLM call raised).  Mutations made before a raise
persist, exactly as on the Python objects; in particular, when the log fits
the memory window the selected agent's memory aliases the canonical
LangGraph log, so the reconciliation appends of `update_with_new_messages`
and the `_add_response_to_memory` append inside `respond` write through
into `conversation_state.messages`. -/
def Conversation.next_turn (c : Conversation) (pick : SpeakerPick)
    (resp : Except Unit String) (evaluatorSummary : String) :
    Conversation × TurnResult :=
  if c.max_rounds ≤ c.round_count then
    let p := c.conclude_conversation evaluatorSummary
    (p.1, .concluded p.2)
  else
    match c.get_next_agent pick with
    | .error _ => (c, .noAgents)
    | .ok (sp, c1) =>
      let a1 := (c1.speakerState sp).set_memory_messages
        (LangGraphMemory.recent_ref c1.window_size c1.conversation_state)
      let new_messages := c1.get_new_messages_for_agent a1
      let pr := a1.update_with_new_messages new_messages c1.conversation_state.messages
      let c2 := (c1.setSpeakerState sp pr.1).with_messages pr.2
      match resp with
      | .error _ => (c2, .generationFailed)
      | .ok response =>
        let qr := (c2.speakerState sp).add_response_to_memory response
          c2.conversation_state.messages
        let c3 := (c2.setSpeakerState sp qr.1).with_messages qr.2
        let c4 := { c3 with broker :=
            { c3.broker with agent := c3.broker.agent.add_to_history response pr.1.name } }
        let c5 := { c4 with conversation_state :=
            (LangGraphMemory.add_message c4.conversation_state
              (.ai (pr.1.name ++ ": " ++ response))) }
        let c6 := if c5.broker.current_turn % c5.agents.length = 0 then
            { c5 with round_count := c5.round_count + 1 }
          else c5
        (c6, .spoke sp (pr.1.name ++ ": " ++ response))

/-- `Conversation.get_conversation_state`. -/
def Conversation.get_conversation_state (c : Conversation) : ConversationState :=
  c.conversation_state

/-- When a different state dict is installed, any memory that aliased the
previous canonical `messages` list still points at that old list object,
which is no longer the canonical log: the alias becomes a detached list
holding the old log's contents. -/
def AgentState.detach_memory (a : AgentState) (old : List BaseMessage) : AgentState :=
  match a.memory_messages with
  | .aliased => { a with memory_messages := .owned old }
  | .owned _ => a

/-- `Conversation.set_conversation_state`: installs the state and restores
`round_count` and `topic` from it.  The broker's `current_turn` is not
restored, and memories that aliased the old canonical list keep referring
to it (detached from the newly installed log). -/
def Conversation.set_conversation_state (c : Conversation) (s : ConversationState) :
    Conversation :=
  { c with conversation_state := s, round_count := s.round_count, topic := s.topic,
           broker := { c.broker with
             agent := c.broker.agent.detach_memory c.conversation_state.messages },
           agents := c.agents.map (fun a => a.detach_memory c.conversation_state.messages) }

/-- Drive a sequence of `next_turn` calls, each with its own scheduler pick
and responder outcome; the evaluator summary input is fixed across the run.
Returns the final conversation and the per-call results in order. -/
def Conversation.run (c : Conversation) (steps : List (SpeakerPick × Except Unit String))
    (evaluatorSummary : String) : Conversation × List TurnResult :=
  match steps with
  | [] => (c, [])
  | s :: rest =>
    let p := c.next_turn s.1 s.2 evaluatorSummary
    let q := p.1.run rest evaluatorSummary
    (q.1, p.2 :: q.2)

/-- The speaker that `get_next_agent` selects for a given draw outcome, as a
function of the pre-call state (used to state lemmas about `next_turn`). -/
def Conversation.pickedSpeaker (c : Conversation) : SpeakerPick → Speaker
  | .brokerSpeaks => .broker
  | .randomAgent i => .participant (i % c.agents.length)
  | .roundRobin => .participant (c.broker.current_turn % c.agents.length)

/-- A three-participant conversation capped at two rounds, started: the
scenario shared by several spec claims. -/
def demo3 : Conversation :=
  (((Conversation.init "T" ["P1", "P2", "P3"]).set_max_rounds 2).start_conversation).1

/-- A single-participant conversation capped at two rounds, started. -/
def demo1 : Conversation :=
  (((Conversation.init "T" ["P1"]).set_max_rounds 2).start_conversation).1

/-- A single-participant conversation with `max_rounds = 0`, started: its
first `next_turn` call already concludes. -/
def demoZero : Conversation :=
  (((Conversation.init "T" ["P1"]).set_max_rounds 0).start_conversation).1

/-- `demoZero` after its first (concluding) `next_turn` call. -/
def demoZeroDone : Conversation := (demoZero.next_turn .roundRobin (.ok "r") "S").1

/-- `demo1` after one successful participant turn (so one full round). -/
def demo1run : Conversation := (demo1.next_turn .roundRobin (.ok "r") "S").1

/-- A one-message LangGraph state used to exercise `get_recent_messages`. -/
def demoState : ConversationState :=
  { messages := [.human "m"], current_agent := "", topic := "T", round_count := 0,
    max_rounds := 1, agent_responses := [] }

section Lemmas

/-- `get_next_agent` on a nonempty roster: the cursor advances by one and the
speaker is determined by the draw outcome. -/
theorem Conversation.get_next_agent_eq (c : Conversation) (pick : SpeakerPick)
    (hA : c.agents.length ≠ 0) :
    c.get_next_agent pick = .ok (c.pickedSpeaker pick,
      { c with broker := { c.broker with current_turn := c.broker.current_turn + 1 } }) := by
  cases pick <;> simp [Conversation.get_next_agent, Conversation.pickedSpeaker, hA]

/-- Counter bookkeeping of a successful `next_turn` call: the cursor
advances by one, roster size and round limit are preserved, `round_count`
increments exactly when the post-increment cursor is a multiple of the
roster size, and the result is a dispatched turn of the drawn speaker.
(The LangGraph log grows by the formatted turn message plus whatever the
selected agent's reconciliation and own-response appends wrote through its
memory alias.) -/
theorem Conversation.next_turn_ok_spec (c : Conversation) (pick : SpeakerPick)
    (r ev : String) (hR : c.round_count < c.max_rounds) (hA : c.agents.length ≠ 0) :
    (c.next_turn pick (.ok r) ev).1.broker.current_turn = c.broker.current_turn + 1 ∧
    (c.next_turn pick (.ok r) ev).1.agents.length = c.agents.length ∧
    (c.next_turn pick (.ok r) ev).1.max_rounds = c.max_rounds ∧
    (c.next_turn pick (.ok r) ev).1.round_count =
      (if (c.broker.current_turn + 1) % c.agents.length = 0 then c.round_count + 1
       else c.round_count) ∧
    (∃ text, (c.next_turn pick (.ok r) ev).2 = .spoke (c.pickedSpeaker pick) text) := by
  have hR' : ¬ c.max_rounds ≤ c.round_count := not_le.mpr hR
  by_cases hIf : (c.broker.current_turn + 1) % c.agents.length = 0 <;>
  cases pick <;>
    simp [Conversation.next_turn, Conversation.get_next_agent, Conversation.pickedSpeaker,
      Conversation.setSpeakerState, Conversation.speakerState, Conversation.with_messages,
      LangGraphMemory.add_message, hR', hA, hIf]

/-- Counter bookkeeping of a `next_turn` call whose responder raises: the
result is a generation failure, `round_count`, `max_rounds`, roster size
and `window_size` are preserved, and the cursor has still advanced by
one.  (The LangGraph log may have grown through the selected agent's
memory alias during reconciliation; see the C5 bug record.) -/
theorem Conversation.next_turn_error_spec (c : Conversation) (pick : SpeakerPick)
    (ev : String) (hR : c.round_count < c.max_rounds) (hA : c.agents.length ≠ 0) :
    (c.next_turn pick (.error ()) ev).2 = .generationFailed ∧
    (c.next_turn pick (.error ()) ev).1.round_count = c.round_count ∧
    (c.next_turn pick (.error ()) ev).1.max_rounds = c.max_rounds ∧
    (c.next_turn pick (.error ()) ev).1.agents.length = c.agents.length ∧
    (c.next_turn pick (.error ()) ev).1.window_size = c.window_size ∧
    (c.next_turn pick (.error ()) ev).1.broker.current_turn = c.broker.current_turn + 1 := by
  have hR' : ¬ c.max_rounds ≤ c.round_count := not_le.mpr hR
  cases pick <;>
    simp [Conversation.next_turn, Conversation.get_next_agent,
      Conversation.setSpeakerState, Conversation.speakerState, Conversation.with_messages,
      hR', hA]

end Lemmas

/-- C1: with 3 registered participants, `max_rounds = 2` and both override
probabilities zero (every draw outcome is `roundRobin`), the first 6
`next_turn` calls dispatch participant turns in strict round-robin order
P1,P2,P3,P1,P2,P3, and the 7th call returns the terminal summary instead of
dispatching a speaker. -/
theorem C1_round_robin_scenario :
    (demo3.run (List.replicate 7 (SpeakerPick.roundRobin, Except.ok "r")) "S").2 =
      [.spoke (.participant 0) "P1: r", .spoke (.participant 1) "P2: r",
       .spoke (.participant 2) "P3: r", .spoke (.participant 0) "P1: r",
       .spoke (.participant 1) "P2: r", .spoke (.participant 2) "P3: r",
       .concluded (conclusion_text 2 "T" "S")] := by rfl

/-- C2 (bug record): on the started 3-participant conversation, a single
`next_turn` on which the broker-override draw fires leaves the canonical
(broker) log with turn ordinals [1, 1, 3]: the introduction is re-appended
with its old ordinal 1 (duplicate) and the broker's response gets ordinal 3
(gap at 2), so the ordinals are not strictly increasing by one. -/
theorem C2_broker_override_duplicates_ordinals :
    ((demo3.next_turn .brokerSpeaks (.ok "r") "S").1.broker.agent.conversation_history.map
        Message.turn) = [1, 1, 3] ∧
    ¬ List.Pairwise (· < ·) [1, 1, 3] := ⟨by rfl, by decide⟩

/-- C4 (counterexample): calling `next_turn` once more after the conversation
has concluded (a call already returned the terminal summary) does not
raise: it returns another terminal summary and appends one more conclusion
message to the LangGraph log, so the log is mutated. -/
theorem C4_cex_post_conclusion_mutates :
    (demoZeroDone.next_turn .roundRobin (.ok "r") "S").2 =
      .concluded (conclusion_text 0 "T" "S") ∧
    (demoZeroDone.next_turn .roundRobin (.ok "r") "S").1.conversation_state.messages.length =
      demoZeroDone.conversation_state.messages.length + 1 := ⟨by rfl, by rfl⟩

/-- C4 (amended): whenever `round_count >= max_rounds` on entry, `next_turn`
does not raise; it performs the conclusion protocol again, returning the
terminal summary and appending one more conclusion message to the LangGraph
log each time, while the broker state (the ordinal log and the cursor) and
`round_count` are unchanged. -/
theorem C4_post_conclusion_reconcludes (c : Conversation) (pick : SpeakerPick)
    (resp : Except Unit String) (ev : String) (h : c.max_rounds ≤ c.round_count) :
    (c.next_turn pick resp ev).2 = .concluded (conclusion_text c.max_rounds c.topic ev) ∧
    (c.next_turn pick resp ev).1.conversation_state.messages =
      c.conversation_state.messages ++
        [.human (conclusion_text c.max_rounds c.topic ev)] ∧
    (c.next_turn pick resp ev).1.broker = c.broker ∧
    (c.next_turn pick resp ev).1.round_count = c.round_count := by
  simp [Conversation.next_turn, Conversation.conclude_conversation,
    LangGraphMemory.add_message, h]

/-- C4 (witness): the amended behaviour at the concrete concluded
conversation `demoZeroDone`. -/
theorem C4_post_conclusion_witness :
    demoZeroDone.max_rounds ≤ demoZeroDone.round_count ∧
    ((demoZeroDone.next_turn .brokerSpeaks (.error ()) "S").2 =
        .concluded (conclusion_text demoZeroDone.max_rounds demoZeroDone.topic "S") ∧
      (demoZeroDone.next_turn .brokerSpeaks (.error ()) "S").1.conversation_state.messages =
        demoZeroDone.conversation_state.messages ++
          [.human (conclusion_text demoZeroDone.max_rounds demoZeroDone.topic "S")] ∧
      (demoZeroDone.next_turn .brokerSpeaks (.error ()) "S").1.broker = demoZeroDone.broker ∧
      (demoZeroDone.next_turn .brokerSpeaks (.error ()) "S").1.round_count =
        demoZeroDone.round_count) :=
  ⟨by decide, C4_post_conclusion_reconcludes demoZeroDone .brokerSpeaks (.error ()) "S"
    (by decide)⟩

/-- C6 (counterexample): calling `start_conversation` a second time on a
concrete conversation does not raise; it appends a second copy of the
introduction to the LangGraph log and a second entry to the broker's
ordinal log. -/
theorem C6_cex_double_start_appends :
    ((Conversation.init "T" ["P1"]).start_conversation.1.start_conversation.1).conversation_state.messages
      = [.human (introduction_text "T" ["P1"]), .human (introduction_text "T" ["P1"])] ∧
    (((Conversation.init "T" ["P1"]).start_conversation.1.start_conversation.1).broker.agent.conversation_history.map
        Message.turn) = [1, 2] := ⟨by rfl, by rfl⟩

/-- C6 (amended): `start_conversation` has no started-state guard: called a
second time on any conversation it appends a second introduction message to
the LangGraph log and a second entry to the broker's ordinal log. -/
theorem C6_double_start_appends_again (c : Conversation) :
    ((c.start_conversation.1).start_conversation.1).conversation_state.messages =
      c.conversation_state.messages ++
        [.human (introduction_text c.topic (c.agents.map AgentState.name)),
         .human (introduction_text c.topic (c.agents.map AgentState.name))] ∧
    ((c.start_conversation.1).start_conversation.1).broker.agent.conversation_history.length =
      c.broker.agent.conversation_history.length + 2 := by
  simp [Conversation.start_conversation, LangGraphMemory.add_message,
    AgentState.add_to_history]

/-- C8 (counterexample): `get_recent_messages` with `size = 0` does not
return at most 0 messages: Python's `window_size or self.window_size`
treats 0 as falsy, so the configured default window applies and the whole
one-message log is returned. -/
theorem C8_cex_zero_size :
    LangGraphMemory.get_recent_messages 10 demoState (some 0) = [.human "m"] ∧
    ¬ ((LangGraphMemory.get_recent_messages 10 demoState (some 0)).length ≤ 0) :=
  ⟨by rfl, by decide⟩

/-- C8 (amended): for every explicitly passed size of at least 1,
`get_recent_messages` returns at most `size` messages, namely the suffix of
the log of that length, and the entire log unchanged when `size` is at
least the log length (it is a pure read of the state); sizes 0 and None
fall back to the memory's configured window instead. -/
theorem C8_recent_window (w : Nat) (st : ConversationState) (k : Nat) (hk : 1 ≤ k) :
    (LangGraphMemory.get_recent_messages w st (some k)).length ≤ k ∧
    LangGraphMemory.get_recent_messages w st (some k) =
      st.messages.drop (st.messages.length - k) ∧
    (st.messages.length ≤ k → LangGraphMemory.get_recent_messages w st (some k) = st.messages) := by
  cases k with
  | zero => omega
  | succ k =>
    by_cases h : st.messages.length ≤ k + 1
    · refine ⟨by simp [LangGraphMemory.get_recent_messages, h], ?_,
        fun _ => by simp [LangGraphMemory.get_recent_messages, h]⟩
      have h0 : st.messages.length - (k + 1) = 0 := by omega
      simp [LangGraphMemory.get_recent_messages, h, h0]
    · refine ⟨?_, by simp [LangGraphMemory.get_recent_messages, h],
        fun h2 => absurd h2 h⟩
      have hb : st.messages.length - (st.messages.length - (k + 1)) ≤ k + 1 := by omega
      simpa [LangGraphMemory.get_recent_messages, h] using hb

/-- C8 (witness): the amended statement at a concrete state and size. -/
theorem C8_recent_window_witness :
    1 ≤ 1 ∧
    ((LangGraphMemory.get_recent_messages 10 demoState (some 1)).length ≤ 1 ∧
      LangGraphMemory.get_recent_messages 10 demoState (some 1) =
        demoState.messages.drop (demoState.messages.length - 1) ∧
      (demoState.messages.length ≤ 1 →
        LangGraphMemory.get_recent_messages 10 demoState (some 1) = demoState.messages)) :=
  ⟨by decide, C8_recent_window 10 demoState 1 (by decide)⟩

/-- C9 (bug record): after one successful turn of the started
single-participant conversation, `round_count` is 1, but restoring the
snapshot taken by `get_conversation_state` resets `round_count` to 0:
`next_turn` never writes the round counter into the LangGraph state dict,
so the snapshot holds the stale initial value. -/
theorem C9_restore_resets_round_count :
    demo1run.round_count = 1 ∧
    (demo1run.set_conversation_state demo1run.get_conversation_state).round_count = 0 :=
  ⟨by rfl, by rfl⟩

/-- After a `next_turn` whose responder failed, a retried call still
dispatches: with a round-robin draw it selects the participant at the
already-advanced cursor. -/
theorem Conversation.retry_after_failure (c : Conversation) (pick : SpeakerPick) (ev : String)
    (hR : c.round_count < c.max_rounds) (hA : c.agents.length ≠ 0) :
    ∀ r ev', ∃ text,
      ((c.next_turn pick (.error ()) ev).1.next_turn .roundRobin (.ok r) ev').2 =
        .spoke (.participant ((c.broker.current_turn + 1) % c.agents.length)) text := by
  obtain ⟨-, h3, h4, h5, -, h7⟩ := c.next_turn_error_spec pick ev hR hA
  intro r ev'
  have hR1 : (c.next_turn pick (.error ()) ev).1.round_count <
      (c.next_turn pick (.error ()) ev).1.max_rounds := by rw [h3, h4]; exact hR
  have hA1 : (c.next_turn pick (.error ()) ev).1.agents.length ≠ 0 := by rw [h5]; exact hA
  obtain ⟨-, -, -, -, text, ht⟩ :=
    (c.next_turn pick (.error ()) ev).1.next_turn_ok_spec .roundRobin r ev' hR1 hA1
  refine ⟨text, ?_⟩
  rw [ht]
  simp [Conversation.pickedSpeaker, h5, h7]

/-- C5 (bug record): on the started 3-participant conversation (log = the
introduction, well within the 10-message window) a first `next_turn` whose
responder raises still commits to the canonical LangGraph log: the
reconciliation appended "The Broker: introduction" through the selected
agent's memory alias before `respond` raised, growing the log from 1 to 2
messages — not "exactly as it was before the failed turn". -/
theorem C5_reconciliation_leak_on_failure :
    demo3.conversation_state.messages =
      [.human (introduction_text "T" ["P1", "P2", "P3"])] ∧
    (demo3.next_turn .roundRobin (.error ()) "S").2 = .generationFailed ∧
    (demo3.next_turn .roundRobin (.error ()) "S").1.conversation_state.messages =
      [.human (introduction_text "T" ["P1", "P2", "P3"]),
       .human ("The Broker: " ++ introduction_text "T" ["P1", "P2", "P3"])] :=
  ⟨by rfl, by rfl, by rfl⟩

/-- The `last_seen_turn` written by one reconciliation step is the delivered
message's turn, whatever the memory reference is. -/
theorem AgentState.update_with_one_last_seen (p : AgentState × List BaseMessage)
    (m : Message) :
    (AgentState.update_with_one p m).1.last_seen_turn = m.turn := by
  cases hmem : p.1.memory_messages <;> by_cases hsp : m.speaker = p.1.name <;>
    simp [AgentState.update_with_one, hmem, hsp]

/-- The `last_seen_turn` produced by `update_with_new_messages` is the turn
of the last delivered message (or the old value when none are delivered),
for any canonical log being threaded. -/
theorem AgentState.update_last_seen (l : List Message) :
    ∀ (a : AgentState) (log : List BaseMessage),
      (a.update_with_new_messages l log).1.last_seen_turn =
        (l.map Message.turn).getLastD a.last_seen_turn := by
  induction l with
  | nil => intro a log; rfl
  | cons m rest ih =>
    intro a log
    show (AgentState.update_with_new_messages (AgentState.update_with_one (a, log) m).1 rest
        (AgentState.update_with_one (a, log) m).2).1.last_seen_turn = _
    rw [ih, List.map_cons, List.getLastD_cons, AgentState.update_with_one_last_seen]

/-- In a list sorted by `≤`, every element is at most the last element. -/
theorem le_getLastD_of_sorted : ∀ (l : List Nat) (d : Nat),
    List.Sorted (· ≤ ·) l → ∀ x ∈ l, x ≤ l.getLastD d := by
  intro l
  induction l with
  | nil => intro d _ x hx; simp at hx
  | cons y ys ih =>
    intro d hs x hx
    have hs2 := List.sorted_cons.mp hs
    rw [List.getLastD_cons]
    rcases List.mem_cons.mp hx with rfl | hx2
    · cases ys with
      | nil => simp
      | cons z zs =>
        have h1 : x ≤ z := hs2.1 z (by simp)
        have h2 : z ≤ (z :: zs).getLastD x := ih x hs2.2 z (by simp)
        exact le_trans h1 h2
    · exact ih y hs2.2 x hx2

/-- A nonempty list's `getLastD` is one of its elements. -/
theorem getLastD_mem : ∀ (l : List Nat) (d : Nat), l ≠ [] → l.getLastD d ∈ l := by
  intro l
  induction l with
  | nil => intro d h; exact absurd rfl h
  | cons x xs ih =>
    intro d _
    rw [List.getLastD_cons]
    cases xs with
    | nil => simp
    | cons y ys => exact List.mem_cons_of_mem x (ih x (by simp))

/-- C7: once a reconciliation has delivered the unseen messages of a
canonical (broker) log whose turn ordinals are sorted — so `last_seen_turn`
ends up at the greatest ordinal observed — a second `unseen_since` query
against the same log returns the empty sequence, whatever LangGraph log
the reconciliation threaded its memory appends through. -/
theorem C7_unseen_since_idempotent (c : Conversation) (a : AgentState)
    (log : List BaseMessage)
    (hs : List.Sorted (· ≤ ·) (c.broker.agent.conversation_history.map Message.turn)) :
    c.get_new_messages_for_agent
      ((a.update_with_new_messages (c.get_new_messages_for_agent a) log).1) = [] := by
  unfold Conversation.get_new_messages_for_agent
  rw [List.filter_eq_nil_iff]
  intro m hm
  simp only [decide_eq_true_eq, not_lt]
  rw [AgentState.update_last_seen]
  set log := c.broker.agent.conversation_history with hlogdef
  set new := log.filter (fun m => decide (a.last_seen_turn < m.turn)) with hnewdef
  by_cases hnew : new = []
  · rw [hnew]
    have := List.filter_eq_nil_iff.mp hnew m hm
    simpa using this
  · have hmapne : new.map Message.turn ≠ [] := by
      simpa using hnew
    have hsubl : (new.map Message.turn).Sublist (log.map Message.turn) :=
      List.Sublist.map Message.turn (List.filter_sublist log)
    have hsorted_new : List.Sorted (· ≤ ·) (new.map Message.turn) :=
      List.Pairwise.sublist hsubl hs
    by_cases hseen : a.last_seen_turn < m.turn
    · have hmnew : m ∈ new := by
        rw [hnewdef]
        exact List.mem_filter.mpr ⟨hm, by simpa using hseen⟩
      exact le_getLastD_of_sorted (new.map Message.turn) a.last_seen_turn hsorted_new
        m.turn (List.mem_map_of_mem Message.turn hmnew)
    · have hlast_mem : (new.map Message.turn).getLastD a.last_seen_turn ∈
          new.map Message.turn := getLastD_mem _ _ hmapne
      obtain ⟨m', hm', hturn⟩ := List.mem_map.mp hlast_mem
      have : a.last_seen_turn < m'.turn := by
        have := (List.mem_filter.mp (hnewdef ▸ hm')).2
        simpa using this
      omega

/-- C7 (witness): the idempotence at a concrete conversation (one sorted log
entry), a fresh agent and an empty threaded log. -/
theorem C7_unseen_since_witness :
    List.Sorted (· ≤ ·) (demo1.broker.agent.conversation_history.map Message.turn) ∧
    demo1.get_new_messages_for_agent
      (((mkAgent "X").update_with_new_messages
        (demo1.get_new_messages_for_agent (mkAgent "X")) []).1) = [] :=
  ⟨by decide, C7_unseen_since_idempotent demo1 (mkAgent "X") [] (by decide)⟩

/-- Counter bookkeeping of a run of successful turns, for any sequence of
draw outcomes: the cursor advances by one per dispatched turn and
`round_count` stays the cursor divided by the roster size, provided the run
is short enough that no call hits the conclusion branch. -/
theorem Conversation.run_ok_counters (steps : List (SpeakerPick × String)) :
    ∀ (c : Conversation) (ev : String),
      c.agents.length ≠ 0 →
      c.round_count = c.broker.current_turn / c.agents.length →
      c.broker.current_turn + steps.length ≤ c.agents.length * c.max_rounds →
      (c.run (steps.map fun s => (s.1, .ok s.2)) ev).1.broker.current_turn =
          c.broker.current_turn + steps.length ∧
      (c.run (steps.map fun s => (s.1, .ok s.2)) ev).1.agents.length = c.agents.length ∧
      (c.run (steps.map fun s => (s.1, .ok s.2)) ev).1.max_rounds = c.max_rounds ∧
      (c.run (steps.map fun s => (s.1, .ok s.2)) ev).1.round_count =
        (c.broker.current_turn + steps.length) / c.agents.length := by
  induction steps with
  | nil =>
    intro c ev hA hInv _
    simpa [Conversation.run] using hInv
  | cons s rest ih =>
    intro c ev hA hInv hBound
    have hN : 0 < c.agents.length := Nat.pos_of_ne_zero hA
    have hR : c.round_count < c.max_rounds := by
      rw [hInv, Nat.div_lt_iff_lt_mul hN]
      have hlen : (s :: rest).length = rest.length + 1 := rfl
      rw [Nat.mul_comm]
      omega
    obtain ⟨h1, h2, h3, h4, -⟩ := c.next_turn_ok_spec s.1 s.2 ev hR hA
    have hInv1 : (c.next_turn s.1 (.ok s.2) ev).1.round_count =
        (c.next_turn s.1 (.ok s.2) ev).1.broker.current_turn /
          (c.next_turn s.1 (.ok s.2) ev).1.agents.length := by
      rw [h4, h1, h2, hInv, Nat.succ_div]
      by_cases hd : (c.broker.current_turn + 1) % c.agents.length = 0
      · rw [if_pos hd, if_pos (Nat.dvd_iff_mod_eq_zero.mpr hd)]
      · rw [if_neg hd, if_neg (fun hcon => hd (Nat.dvd_iff_mod_eq_zero.mp hcon))]
        omega
    have hA1 : (c.next_turn s.1 (.ok s.2) ev).1.agents.length ≠ 0 := by
      rw [h2]; exact hA
    have hBound1 : (c.next_turn s.1 (.ok s.2) ev).1.broker.current_turn + rest.length ≤
        (c.next_turn s.1 (.ok s.2) ev).1.agents.length *
          (c.next_turn s.1 (.ok s.2) ev).1.max_rounds := by
      rw [h1, h2, h3]
      have hlen : (s :: rest).length = rest.length + 1 := rfl
      omega
    obtain ⟨g1, g2, g3, g4⟩ := ih (c.next_turn s.1 (.ok s.2) ev).1 ev hA1 hInv1 hBound1
    have harr : c.broker.current_turn + 1 + rest.length =
        c.broker.current_turn + (s :: rest).length := by
      simp [List.length_cons]; omega
    refine ⟨?_, ?_, ?_, ?_⟩ <;> simp only [List.map_cons, Conversation.run]
    · rw [g1, h1, harr]
    · rw [g2, h2]
    · rw [g3, h3]
    · rw [g4, h1, h2, harr]

/-- C3: for every nonempty roster and every sequence of successful
`next_turn` calls short enough to stay below the round limit — whatever mix
of round-robin, broker-override and random-override draws they use —
`round_count` after k dispatched turns is k divided by the roster size N,
and appending any further N dispatched turns increments it by exactly
one. -/
theorem C3_round_count_every_N_turns (topic ev : String) (names : List String)
    (rounds : Nat) (steps : List (SpeakerPick × String)) (hN : names ≠ [])
    (hk : steps.length ≤ names.length * rounds) :
    ((((Conversation.init topic names).set_max_rounds rounds).start_conversation).1.run
        (steps.map fun s => (s.1, .ok s.2)) ev).1.round_count =
      steps.length / names.length ∧
    (∀ more : List (SpeakerPick × String), more.length = names.length →
      steps.length + names.length ≤ names.length * rounds →
      ((((Conversation.init topic names).set_max_rounds rounds).start_conversation).1.run
          ((steps ++ more).map fun s => (s.1, .ok s.2)) ev).1.round_count =
        ((((Conversation.init topic names).set_max_rounds rounds).start_conversation).1.run
            (steps.map fun s => (s.1, .ok s.2)) ev).1.round_count + 1) := by
  have hNpos : 0 < names.length := List.length_pos.mpr hN
  have hLen : ((((Conversation.init topic names).set_max_rounds rounds).start_conversation).1).agents.length
      = names.length := by
    simp [Conversation.init, Conversation.set_max_rounds, Conversation.start_conversation]
  have hA : ((((Conversation.init topic names).set_max_rounds rounds).start_conversation).1).agents.length
      ≠ 0 := by rw [hLen]; omega
  have hT : ((((Conversation.init topic names).set_max_rounds rounds).start_conversation).1).broker.current_turn
      = 0 := rfl
  have hMax : ((((Conversation.init topic names).set_max_rounds rounds).start_conversation).1).max_rounds
      = rounds := rfl
  have hRound : ((((Conversation.init topic names).set_max_rounds rounds).start_conversation).1).round_count
      = 0 := rfl
  have hInv : ((((Conversation.init topic names).set_max_rounds rounds).start_conversation).1).round_count
      = ((((Conversation.init topic names).set_max_rounds rounds).start_conversation).1).broker.current_turn
        / ((((Conversation.init topic names).set_max_rounds rounds).start_conversation).1).agents.length := by
    rw [hRound, hT]; simp
  obtain ⟨-, -, -, q4⟩ := Conversation.run_ok_counters steps
    ((((Conversation.init topic names).set_max_rounds rounds).start_conversation).1) ev hA hInv
    (by rw [hT, hLen, hMax]; simpa using hk)
  refine ⟨?_, ?_⟩
  · rw [q4, hT, hLen]; simp
  · intro more hmore hbound
    obtain ⟨-, -, -, p4⟩ := Conversation.run_ok_counters (steps ++ more)
      ((((Conversation.init topic names).set_max_rounds rounds).start_conversation).1) ev hA hInv
      (by rw [hT, hLen, hMax]; simp [List.length_append, hmore]; omega)
    rw [p4, q4, hT, hLen]
    simp only [List.length_append, hmore, Nat.zero_add]
    exact Nat.add_div_right _ hNpos

/-- C3 (witness): with 2 participants and 2 dispatched turns that are both
overrides (one broker, one random), `round_count` is 2 / 2 = 1. -/
theorem C3_round_count_witness :
    (["P1", "P2"] ≠ ([] : List String)) ∧
    ((((Conversation.init "T" ["P1", "P2"]).set_max_rounds 2).start_conversation).1.run
        ([(SpeakerPick.brokerSpeaks, "x"), (SpeakerPick.randomAgent 5, "y")].map
          fun s => (s.1, .ok s.2)) "S").1.round_count =
      [(SpeakerPick.brokerSpeaks, "x"), (SpeakerPick.randomAgent 5, "y")].length /
        (["P1", "P2"] : List String).length :=
  ⟨by decide,
    (C3_round_count_every_N_turns "T" "S" ["P1", "P2"] 2
      [(SpeakerPick.brokerSpeaks, "x"), (SpeakerPick.randomAgent 5, "y")]
      (by decide) (by decide)).1⟩

/-- C10 (counterexample): the claim's "the canonical log is unchanged on a
responder failure" is false of the code: on the started 3-participant
conversation the first failed turn mutates `conversation_state.messages`
(the reconciliation wrote through the selected agent's memory alias). -/
theorem C10_cex_log_changes_on_failed_turn :
    (demo3.next_turn .roundRobin (.error ()) "S").1.conversation_state.messages ≠
      demo3.conversation_state.messages := by decide

/-- C10 (amended): on a dispatching `next_turn` whose responder fails, the
scheduler cursor has already advanced and the selected round-robin
speaker's state has already been reconciled (memory reference installed,
unseen messages folded into its private history and `last_seen_turn`) —
these mutations persist, together with whatever reconciliation messages
were written through the memory alias into the LangGraph log, while the
broker's ordinal log is untouched — and a retried call dispatches the
participant at the next round-robin slot, which (with at least two
participants) is a different slot from the failed speaker's. -/
theorem C10_failed_turn_mutations_persist (c : Conversation) (ev : String)
    (hR : c.round_count < c.max_rounds) (hA : 2 ≤ c.agents.length) :
    (c.next_turn .roundRobin (.error ()) ev).1.broker.current_turn =
      c.broker.current_turn + 1 ∧
    (c.next_turn .roundRobin (.error ()) ev).1.agents.getD
        (c.broker.current_turn % c.agents.length) dummyAgent =
      (((c.agents.getD (c.broker.current_turn % c.agents.length) dummyAgent).set_memory_messages
            (LangGraphMemory.recent_ref c.window_size c.conversation_state)).update_with_new_messages
          (c.get_new_messages_for_agent
            ((c.agents.getD (c.broker.current_turn % c.agents.length) dummyAgent).set_memory_messages
              (LangGraphMemory.recent_ref c.window_size c.conversation_state)))
          c.conversation_state.messages).1 ∧
    (c.next_turn .roundRobin (.error ()) ev).1.conversation_state.messages =
      (((c.agents.getD (c.broker.current_turn % c.agents.length) dummyAgent).set_memory_messages
            (LangGraphMemory.recent_ref c.window_size c.conversation_state)).update_with_new_messages
          (c.get_new_messages_for_agent
            ((c.agents.getD (c.broker.current_turn % c.agents.length) dummyAgent).set_memory_messages
              (LangGraphMemory.recent_ref c.window_size c.conversation_state)))
          c.conversation_state.messages).2 ∧
    (c.next_turn .roundRobin (.error ()) ev).1.broker.agent = c.broker.agent ∧
    (∀ r ev', ∃ text,
      ((c.next_turn .roundRobin (.error ()) ev).1.next_turn .roundRobin (.ok r) ev').2 =
        .spoke (.participant ((c.broker.current_turn + 1) % c.agents.length)) text) ∧
    (c.broker.current_turn + 1) % c.agents.length ≠
      c.broker.current_turn % c.agents.length := by
  have hA0 : c.agents.length ≠ 0 := by omega
  have hR' : ¬ c.max_rounds ≤ c.round_count := not_le.mpr hR
  have hIdx : c.broker.current_turn % c.agents.length < c.agents.length :=
    Nat.mod_lt _ (by omega)
  refine ⟨?_, ?_, ?_, ?_, c.retry_after_failure .roundRobin ev hR hA0, ?_⟩
  · simp [Conversation.next_turn, Conversation.get_next_agent,
      Conversation.setSpeakerState, Conversation.with_messages, hR', hA0]
  · simp [Conversation.next_turn, Conversation.get_next_agent,
      Conversation.setSpeakerState, Conversation.speakerState,
      Conversation.with_messages, hR', hA0,
      List.getD_eq_getElem?_getD, List.getElem?_set_self hIdx,
      Conversation.get_new_messages_for_agent]
  · simp [Conversation.next_turn, Conversation.get_next_agent,
      Conversation.setSpeakerState, Conversation.speakerState,
      Conversation.with_messages, hR', hA0,
      Conversation.get_new_messages_for_agent]
  · simp [Conversation.next_turn, Conversation.get_next_agent,
      Conversation.setSpeakerState, Conversation.with_messages, hR', hA0]
  · intro heq
    have h1N : 1 % c.agents.length = 1 := Nat.mod_eq_of_lt (by omega)
    rw [Nat.add_mod, h1N] at heq
    have haN : c.broker.current_turn % c.agents.length < c.agents.length :=
      Nat.mod_lt _ (by omega)
    by_cases hlt : c.broker.current_turn % c.agents.length + 1 < c.agents.length
    · rw [Nat.mod_eq_of_lt hlt] at heq; omega
    · have hEq : c.broker.current_turn % c.agents.length + 1 = c.agents.length := by omega
      rw [hEq, Nat.mod_self] at heq
      omega

/-- C10 (witness): hypotheses and the cursor-advance conclusion at the
concrete started 3-participant conversation. -/
theorem C10_failed_turn_witness :
    (demo3.round_count < demo3.max_rounds ∧ 2 ≤ demo3.agents.length) ∧
    (demo3.next_turn .roundRobin (.error ()) "S").1.broker.current_turn =
      demo3.broker.current_turn + 1 :=
  ⟨⟨by decide, by decide⟩,
    (C10_failed_turn_mutations_persist demo3 "S" (by decide) (by decide)).1⟩

end Pandemonium
